import Mathlib

/-!
Verification of the artifact store and assembly layer of
`word2vec_pipeline/utils/data_utils.py`.

The HDF5 store is modelled as an association list from dataset names to
values (polymorphic in the stored value, since the code stores both 1-D
reference arrays and 2-D vector matrices).  File-handle behaviour is made
observable by having each routine also return the list of file operations
it performs, in program order; the Python `with` statement closes the
handle on every exit path, including exceptions, and the traces reflect
that.  CSV tables are modelled as a header plus integer rows; a loaded row
is an association list from column name to value, which is how `pandas`
aligns columns by name across concatenated frames.  `sort_values` /
`argsort` followed by fancy indexing are modelled by a deterministic
sort on the rows (Mathlib's `insertionSort`); the code's default
quicksort fixes no particular order among duplicate keys, so no claim is
settled through the model's order of equal keys.  `np.vstack` demands
one common row width across the stacked arrays; `vstack_ok` is that
check.
-/

/-- One operation on an underlying store file, recorded in a trace. -/
inductive FileOp where
  | openRead : String → FileOp
  | openWrite : String → FileOp
  | openRW : String → FileOp
  | readDataset : String → FileOp
  | closeFile : String → FileOp
deriving DecidableEq

/-- Does the operation open a handle (any mode)? -/
def FileOp.isOpenOp : FileOp → Bool
  | .openRead _ => true
  | .openWrite _ => true
  | .openRW _ => true
  | _ => false

/-- Does the operation close a handle? -/
def FileOp.isCloseOp : FileOp → Bool
  | .closeFile _ => true
  | _ => false

/-- Does the operation read a dataset's contents? -/
def FileOp.isReadOp : FileOp → Bool
  | .readDataset _ => true
  | _ => false

/-- A trace is balanced when every open is matched by a close. -/
def balancedTrace (t : List FileOp) : Prop :=
  t.countP FileOp.isOpenOp = t.countP FileOp.isCloseOp

instance (t : List FileOp) : Decidable (balancedTrace t) := by
  unfold balancedTrace; infer_instance

/-- Embedding of `load_h5_file(f_h5, *args)` (data_utils.py lines 16-41).
The file's top level is an association list from dataset name to stored
array.  If `args` is empty it is replaced by the file's key list; a first
validation loop raises `ValueError("{} not found in {}".format(key, f_h5))`
at the first missing key, and only after it passes does a second loop read
the datasets.  The `with h5py.File(f_h5, 'r')` block opens the file
read-only and closes it on every exit path. -/
def load_h5_file {α : Type} (f_h5 : String) (h5 : List (String × α))
    (args : List String) :
    List FileOp × Except (String × String) (List (String × α)) :=
  let keys := if args.isEmpty then h5.map Prod.fst else args
  match keys.find? (fun k => (h5.lookup k).isNone) with
  | some k => ([FileOp.openRead f_h5, FileOp.closeFile f_h5], .error (k, f_h5))
  | none =>
      ([FileOp.openRead f_h5] ++ keys.map FileOp.readDataset
         ++ [FileOp.closeFile f_h5],
       .ok (keys.filterMap (fun k => (h5.lookup k).map (fun v => (k, v)))))

/-- Embedding of `touch_h5(f_db)` (lines 44-59).  The filesystem is an
association list from path to store contents (a store file is an
association list from group name to group contents).  If the path does not
exist the file is opened in mode `'w'`, creating an empty store, else in
mode `'r+'`.  The open handle is RETURNED, not closed. -/
def touch_h5 {γ : Type} (fs : List (String × List (String × γ)))
    (f_db : String) : List FileOp × List (String × γ) :=
  match fs.lookup f_db with
  | none => ([FileOp.openWrite f_db], [])
  | some st => ([FileOp.openRW f_db], st)

/-- Embedding of `h5.require_group(method)`: return the group, creating an
empty one (and recording it in the store) if absent. -/
def require_group {δ : Type} (h5 : List (String × List (String × δ)))
    (method : String) :
    List (String × List (String × δ)) × List (String × δ) :=
  match h5.lookup method with
  | some g => (h5, g)
  | none => (h5 ++ [(method, [])], [])

/-- Embedding of `get_h5save_object(f_db, method)` (lines 62-66): open via
`touch_h5`, then `require_group(method)`, returning the group with the
file handle still open. -/
def get_h5save_object {δ : Type}
    (fs : List (String × List (String × List (String × δ))))
    (f_db method : String) : List FileOp × List (String × δ) :=
  let t := touch_h5 fs f_db
  (t.1, (require_group t.2 method).2)

/-- Embedding of `save_h5(h5, col, data)` (lines 69-73): if `col` is
already present in the group, delete it first (`del h5[col]`), then
`create_dataset(col, data=data)` adds the new dataset. -/
def save_h5 {α : Type} (h5 : List (String × α)) (col : String) (data : α) :
    List (String × α) :=
  let h5' := if (h5.lookup col).isSome then h5.filter (fun p => p.1 != col)
             else h5
  h5' ++ [(col, data)]

/-- Models the dataset read `h5[col][:]` used throughout data_utils.py. -/
def read_dataset {α : Type} (h5 : List (String × α)) (col : String) :
    Option α :=
  h5.lookup col

/-- A CSV shard file: a header row of column names and integer data rows
aligned with the header. -/
structure CSVFile where
  header : List String
  rows : List (List Int)
deriving DecidableEq

/-- A loaded row: column name to value, in file column order.  `pandas`
aligns concatenated frames by column name, which this representation keeps
exact. -/
abbrev Row := List (String × Int)

/-- `pd.read_csv(f, usecols=cols)` keeps exactly the requested columns, in
the order they appear in the file (columns are selected, never
reordered). -/
def projectRow (header : List String) (cols : List String)
    (row : List Int) : Row :=
  (header.zip row).filter (fun p => cols.contains p.1)

/-- Embedding of `simple_CSV_read(f, cols)` (lines 94-111).
`pd.read_csv(f, usecols=cols)` raises `ValueError` when some requested
column is absent; the handler re-reads the header and raises
`ValueError(msg.format(cols, csv_cols))` reporting the requested and the
actual columns. -/
def simple_CSV_read (f : CSVFile) (cols : List String) :
    Except (List String × List String) (List Row) :=
  if cols.all (fun c => f.header.contains c) then
    .ok (f.rows.map (projectRow f.header cols))
  else
    .error (cols, f.header)

/-- The `_ref` value of a loaded row (the sort key of `sort_values('_ref')`). -/
def refKey (r : Row) : Int :=
  (r.lookup "_ref").getD 0

/-- Row comparison by `_ref`, the order used by `sort_values('_ref')`. -/
def rowLE (a b : Row) : Prop :=
  refKey a ≤ refKey b

instance : DecidableRel rowLE := fun a b =>
  inferInstanceAs (Decidable (refKey a ≤ refKey b))

instance : IsTotal Row rowLE :=
  ⟨fun a b => Int.le_total (refKey a) (refKey b)⟩

instance : IsTrans Row rowLE :=
  ⟨fun _ _ _ => Int.le_trans⟩

/-- The result of `load_ORG_data`: a frame with an index (the `_ref`
lookup key) and the payload rows. -/
structure KeyedFrame where
  index : List Int
  rows : List Row
deriving DecidableEq

/-- `set_index('_ref')` removes the `_ref` column; the following
`df['_ref'] = df.index` appends it back as the last column with the
index value. -/
def setIndexRow (r : Row) : Row :=
  r.filter (fun p => p.1 != "_ref") ++ [("_ref", refKey r)]

/-- The column list `["_ref"] + extra_columns` built by `load_ORG_data`. -/
def loadCols (extra_columns : Option (List String)) : List String :=
  ["_ref"] ++ extra_columns.getD []

set_option linter.unusedVariables false in
/-- Embedding of `load_ORG_data(extra_columns)` (lines 114-143).
`cols = ["_ref"] + extra_columns` (when given); every matched CSV file is
read with `simple_CSV_read` (the first failure aborts the whole load, as
any worker exception propagates through `joblib.Parallel`); the per-file
frames are concatenated, sorted by `_ref`, the index set to `_ref` and
`_ref` re-added as a column.  `CORES` (from the `_PARALLEL` flag, kept
here as the `parallel` argument) only selects the degree of parallelism;
`joblib.Parallel` returns results in the order of the input iterable, so
it does not affect the value and the body does not consume it. -/
def load_ORG_data (files : List CSVFile) (extra_columns : Option (List String))
    (parallel : Bool) : Except (List String × List String) KeyedFrame :=
  match files.mapM (fun f => simple_CSV_read f (loadCols extra_columns)) with
  | .error e => .error e
  | .ok data =>
      .ok { index := (List.insertionSort rowLE data.flatten).map refKey,
            rows := (List.insertionSort rowLE data.flatten).map setIndexRow }

/-- One shard group under a score-method group of the score store: it
holds the aligned datasets named `_ref`, `V` (full vectors) and `VX`
(reduced vectors). -/
structure DocShard where
  ref : List Int
  V : List (List Int)
  VX : List (List Int)
deriving DecidableEq

/-- `vector_key = "VX" if use_reduced else "V"` (line 215). -/
def vector_key (use_reduced : Bool) : String :=
  if use_reduced then "VX" else "V"

/-- The dataset read `g[k][vector_key][:]` on a shard. -/
def shardVectors (use_reduced : Bool) (s : DocShard) : List (List Int) :=
  if use_reduced then s.VX else s.V

/-- Comparison of (ref, vector-row) pairs by ref: the order of
`np.argsort(_refs)`, applied to refs and matrix alike. -/
def pairLE (a b : Int × List Int) : Prop :=
  a.1 ≤ b.1

instance : DecidableRel pairLE := fun a b =>
  inferInstanceAs (Decidable (a.1 ≤ b.1))

instance : IsTotal (Int × List Int) pairLE :=
  ⟨fun a b => Int.le_total a.1 b.1⟩

instance : IsTrans (Int × List Int) pairLE :=
  ⟨fun _ _ _ => Int.le_trans⟩

/-- The score store file: score-method group name → shard name → shard. -/
abbrev ScoreStore := List (String × List (String × DocShard))

/-- `np.vstack` (line 216) succeeds only when every stacked row has one
common width (within a shard an HDF5 dataset is already rectangular;
across shards the widths must also agree): the check on the concatenated
rows. -/
def vstack_ok (rows : List (List Int)) : Bool :=
  match rows with
  | [] => true
  | r :: rest => rest.all (fun s => s.length == r.length)

/-- Embedding of `load_document_vectors(score_method, use_reduced)`
(lines 186-228).  Inside `with h5py.File(f_h5, 'r')`: assert the score
method is a group (an `AssertionError` still closes the file); read every
shard's `_ref` dataset, then every shard's selected vector dataset, in the
same shard enumeration order (so `np.hstack([])` on an empty group raises
before any read); `np.vstack` raises `ValueError` unless the stacked rows
share one width; assert the stacked row counts agree; sort both stacks by
the `argsort` permutation of the refs.  Returns `none` where the Python
raises. -/
def load_document_vectors (f_h5 : String) (store : ScoreStore)
    (score_method : String) (use_reduced : Bool) :
    List FileOp × Option (List Int × List (List Int)) :=
  match store.lookup score_method with
  | none => ([FileOp.openRead f_h5, FileOp.closeFile f_h5], none)
  | some g =>
    if g.isEmpty then ([FileOp.openRead f_h5, FileOp.closeFile f_h5], none)
    else
      let trace := [FileOp.openRead f_h5]
        ++ g.map (fun p => FileOp.readDataset (p.1 ++ "/_ref"))
        ++ g.map (fun p => FileOp.readDataset
             (p.1 ++ "/" ++ vector_key use_reduced))
        ++ [FileOp.closeFile f_h5]
      let _refs := (g.map (fun p => p.2.ref)).flatten
      let X := (g.map (fun p => shardVectors use_reduced p.2)).flatten
      if vstack_ok X then
        if X.length = _refs.length then
          let sortedPairs := List.insertionSort pairLE (_refs.zip X)
          (trace, some (sortedPairs.map Prod.fst, sortedPairs.map Prod.snd))
        else (trace, none)
      else (trace, none)

/-! ### Association-list helper lemmas -/

theorem lookup_filter_ne {β : Type} (l : List (String × β)) (n : String) :
    (l.filter (fun p => p.1 != n)).lookup n = none := by
  rw [List.lookup_eq_none_iff]
  intro p hp
  rcases List.mem_filter.mp hp with ⟨-, hne⟩
  simp only [bne_iff_ne, ne_eq] at hne ⊢
  exact fun hc => hne hc.symm

theorem keys_ne_of_lookup_none {β : Type} {l : List (String × β)} {a : String}
    (h : l.lookup a = none) : ∀ p ∈ l, p.1 ≠ a := by
  intro p hp
  have := List.lookup_eq_none_iff.mp h p hp
  simp only [bne_iff_ne, ne_eq] at this
  exact fun hc => this hc.symm

/-- The portion of a `save_h5` result that precedes the freshly created
dataset holds no dataset named `col`. -/
theorem save_h5_prefix_lookup_none {α : Type} (h5 : List (String × α))
    (col : String) :
    (if (h5.lookup col).isSome then h5.filter (fun p => p.1 != col) else h5).lookup col
      = none := by
  cases hl : (h5.lookup col) with
  | some v => simp [hl, lookup_filter_ne]
  | none => simp [hl]

theorem read_dataset_save_h5_self {α : Type} (h5 : List (String × α))
    (col : String) (data : α) :
    read_dataset (save_h5 h5 col data) col = some data := by
  show ((if (h5.lookup col).isSome then h5.filter (fun p => p.1 != col) else h5)
      ++ [(col, data)]).lookup col = some data
  rw [List.lookup_append, save_h5_prefix_lookup_none h5 col]
  simp

theorem save_h5_key_unique {α : Type} (h5 : List (String × α)) (col : String)
    (data : α) : ∀ p ∈ save_h5 h5 col data, p.1 = col → p.2 = data := by
  intro p hp hcol
  simp only [save_h5] at hp
  rcases List.mem_append.mp hp with hp | hp
  · exact absurd hcol (keys_ne_of_lookup_none (save_h5_prefix_lookup_none h5 col) p hp)
  · rcases List.mem_singleton.mp hp with rfl
    rfl

/-! ### Trace lemmas for handle discipline -/

theorem isOpenOp_readDataset (s : String) :
    FileOp.isOpenOp (FileOp.readDataset s) = false := rfl

theorem isCloseOp_readDataset (s : String) :
    FileOp.isCloseOp (FileOp.readDataset s) = false := rfl

theorem countP_comp_eq_zero {β : Type} {q : FileOp → Bool} {f : β → FileOp}
    (h : ∀ x, q (f x) = false) (l : List β) : l.countP (q ∘ f) = 0 :=
  List.countP_eq_zero.mpr (fun a _ => by simp [Function.comp_apply, h])

theorem load_h5_file_trace_balanced {α : Type} (f_h5 : String)
    (h5 : List (String × α)) (args : List String) :
    balancedTrace (load_h5_file f_h5 h5 args).1 := by
  simp only [load_h5_file]
  cases hfind : (if args.isEmpty then h5.map Prod.fst else args).find?
      (fun k => (h5.lookup k).isNone) with
  | some k =>
      simp only [hfind, balancedTrace]
      rfl
  | none =>
      simp only [hfind, balancedTrace, List.countP_append, List.countP_cons,
        List.countP_map, List.countP_nil, FileOp.isOpenOp, FileOp.isCloseOp]
      rw [countP_comp_eq_zero (fun s => rfl), countP_comp_eq_zero (fun s => rfl)]
      simp

theorem load_document_vectors_trace_balanced (f_h5 : String)
    (store : ScoreStore) (m : String) (ur : Bool) :
    balancedTrace (load_document_vectors f_h5 store m ur).1 := by
  simp only [load_document_vectors]
  cases hlk : store.lookup m with
  | none => exact rfl
  | some g =>
      simp only
      by_cases hemp : g.isEmpty
      · simp only [hemp, if_true]
        exact rfl
      · simp only [hemp, if_false, Bool.false_eq_true]
        split <;> try split
        all_goals show balancedTrace _
        all_goals simp only [balancedTrace, List.countP_append,
          List.countP_cons, List.countP_map, List.countP_nil,
          FileOp.isOpenOp, FileOp.isCloseOp]
        all_goals rw [countP_comp_eq_zero (fun p => rfl),
          countP_comp_eq_zero (fun p => rfl),
          countP_comp_eq_zero (fun p => rfl),
          countP_comp_eq_zero (fun p => rfl)]
        all_goals simp

theorem touch_h5_trace_open_not_closed {γ : Type}
    (fs : List (String × List (String × γ))) (f_db : String) :
    (touch_h5 fs f_db).1.countP FileOp.isOpenOp = 1 ∧
    (touch_h5 fs f_db).1.countP FileOp.isCloseOp = 0 := by
  unfold touch_h5
  cases fs.lookup f_db <;> exact ⟨rfl, rfl⟩

/-! ### Claims about the Grouped Artifact Store -/

/-- C5: Read-after-write round trip with last-writer-wins: writing an
array via `save_h5` and reading it back from the same group under the
same name yields the original array (values and shape, since the stored
value is returned unchanged); writing the same name twice with different
arrays leaves exactly the second array readable, with no residual entry
from the first write (the prior dataset is deleted before the new one is
written). -/
theorem claim_C5_round_trip_last_writer_wins :
    (∀ (α : Type) (g : List (String × α)) (n : String) (a : α),
        read_dataset (save_h5 g n a) n = some a) ∧
    (∀ (α : Type) (g : List (String × α)) (n : String) (a₁ a₂ : α),
        read_dataset (save_h5 (save_h5 g n a₁) n a₂) n = some a₂ ∧
        ∀ p ∈ save_h5 (save_h5 g n a₁) n a₂, p.1 = n → p.2 = a₂) :=
  ⟨fun _ g n a => read_dataset_save_h5_self g n a,
   fun _ g n a₁ a₂ =>
     ⟨read_dataset_save_h5_self (save_h5 g n a₁) n a₂,
      save_h5_key_unique (save_h5 g n a₁) n a₂⟩⟩

/-- Witness for C5 at a concrete store: write `[1, 2]` then `[3]` to
dataset `D` of a group already holding a dataset `x`. -/
theorem claim_C5_round_trip_last_writer_wins_witness :
    read_dataset (save_h5 [("x", ([9] : List Int))] "D" [1, 2]) "D" = some [1, 2] ∧
    read_dataset (save_h5 (save_h5 [("x", ([9] : List Int))] "D" [1, 2]) "D" [3]) "D"
      = some [3] ∧
    (("D", ([3] : List Int)).2 = [3]) :=
  ⟨claim_C5_round_trip_last_writer_wins.1 (List Int) [("x", [9])] "D" [1, 2],
   (claim_C5_round_trip_last_writer_wins.2 (List Int) [("x", [9])] "D"
      [1, 2] [3]).1,
   (claim_C5_round_trip_last_writer_wins.2 (List Int) [("x", [9])] "D"
      [1, 2] [3]).2 ("D", [3]) (by decide) rfl⟩

/-- C9, amended: the read routines (`load_h5_file` and
`load_document_vectors`, whose bodies are `with h5py.File(...)` blocks)
match every open of the store with a close on all exit paths, error paths
included.  `touch_h5` and `get_h5save_object`, the open-for-write path,
instead RETURN the open handle: their traces contain one open and no
close, and closing is left to the caller. -/
theorem claim_C9_scoped_acquisition_amended :
    (∀ (α : Type) (f_h5 : String) (h5 : List (String × α))
        (args : List String), balancedTrace (load_h5_file f_h5 h5 args).1) ∧
    (∀ (f_h5 : String) (store : ScoreStore) (m : String) (ur : Bool),
        balancedTrace (load_document_vectors f_h5 store m ur).1) ∧
    (∀ (γ : Type) (fs : List (String × List (String × γ))) (f_db : String),
        (touch_h5 fs f_db).1.countP FileOp.isOpenOp = 1 ∧
        (touch_h5 fs f_db).1.countP FileOp.isCloseOp = 0) ∧
    (∀ (δ : Type) (fs : List (String × List (String × List (String × δ))))
        (f_db method : String),
        (get_h5save_object fs f_db method).1.countP FileOp.isOpenOp = 1 ∧
        (get_h5save_object fs f_db method).1.countP FileOp.isCloseOp = 0) :=
  ⟨fun _ => load_h5_file_trace_balanced,
   load_document_vectors_trace_balanced,
   fun _ => touch_h5_trace_open_not_closed,
   fun _ fs f_db _ => touch_h5_trace_open_not_closed fs f_db⟩

/-- Counterexample to C9 as stated: `touch_h5` (used by the
open-for-write path of the store) returns while the file handle it opened
is still open — its trace on a fresh filesystem has an unmatched open. -/
theorem claim_C9_counterexample :
    ¬ balancedTrace (touch_h5 (γ := List Int) [] "store.h5").1 := by
  decide

/-! ### Claim C4: read_datasets validation pass -/

theorem lookup_isSome_of_mem_keys {α : Type} {l : List (String × α)}
    {k : String} (h : k ∈ l.map Prod.fst) : (l.lookup k).isSome := by
  rw [List.lookup_isSome_iff]
  rcases List.mem_map.mp h with ⟨p, hp, hk⟩
  exact ⟨p, hp, by simp [hk]⟩

/-- Reading back every key of a duplicate-free association list rebuilds
the list itself. -/
theorem assoc_filterMap_keys {α : Type} (l : List (String × α))
    (h : (l.map Prod.fst).Nodup) :
    (l.map Prod.fst).filterMap (fun k => (l.lookup k).map (fun v => (k, v)))
      = l := by
  induction l with
  | nil => rfl
  | cons p t ih =>
      rw [List.map_cons] at h
      obtain ⟨hh, ht⟩ := List.nodup_cons.mp h
      cases p with
      | mk k v =>
        have hk : List.lookup k ((k, v) :: t) = some v := by simp
        have hcongr :
            List.filterMap
                (fun k' => (List.lookup k' ((k, v) :: t)).map (fun w => (k', w)))
                (t.map Prod.fst)
              = List.filterMap
                (fun k' => (List.lookup k' t).map (fun w => (k', w)))
                (t.map Prod.fst) := by
          apply List.filterMap_congr
          intro x hx
          have hxk : ¬ x = k := fun hc => hh (hc ▸ hx)
          have : (x == k) = false := beq_eq_false_iff_ne.mpr hxk
          rw [List.lookup_cons, this]
        simp only [List.map_cons, List.filterMap_cons, hk, Option.map_some]
        rw [hcongr, ih ht]
        rfl

/-- C4: `load_h5_file` opens the store read-only (the first recorded
operation is a read-mode open); with no requested names it returns every
top-level dataset; if some requested name is absent it fails with an
error naming a missing dataset and the store path, and its trace is just
the open and the close — no dataset read happens, so no partial read of
the other requested names occurs on failure. -/
theorem claim_C4_all_or_nothing_read {α : Type} (f_h5 : String)
    (h5 : List (String × α)) (args : List String) :
    ((load_h5_file f_h5 h5 args).1.head? = some (FileOp.openRead f_h5)) ∧
    (args = [] → (h5.map Prod.fst).Nodup →
        (load_h5_file f_h5 h5 args).2 = .ok h5) ∧
    (∀ k ∈ args, h5.lookup k = none →
        ∃ k', k' ∈ args ∧ h5.lookup k' = none ∧
          (load_h5_file f_h5 h5 args).2 = .error (k', f_h5) ∧
          (load_h5_file f_h5 h5 args).1
            = [FileOp.openRead f_h5, FileOp.closeFile f_h5]) := by
  refine ⟨?_, ?_, ?_⟩
  · simp only [load_h5_file]
    cases hfind : (if args.isEmpty then h5.map Prod.fst else args).find?
        (fun k => (h5.lookup k).isNone) <;> rfl
  · rintro rfl hnd
    have hfind : (h5.map Prod.fst).find? (fun k => (h5.lookup k).isNone)
        = none := by
      rw [List.find?_eq_none]
      intro x hx
      have hs := lookup_isSome_of_mem_keys hx
      cases hl : List.lookup x h5 with
      | none => rw [hl] at hs; cases hs
      | some v => simp [hl]
    simp only [load_h5_file, List.isEmpty_nil, if_true, hfind]
    rw [assoc_filterMap_keys h5 hnd]
  · intro k hk hnone
    have hne : args.isEmpty = false :=
      List.isEmpty_eq_false.mpr (List.ne_nil_of_mem hk)
    cases hfind : args.find? (fun k => (h5.lookup k).isNone) with
    | none =>
        exfalso
        have := List.find?_eq_none.mp hfind k hk
        simp [hnone] at this
    | some k' =>
        refine ⟨k', List.mem_of_find?_eq_some hfind, ?_, ?_, ?_⟩
        · have := List.find?_some hfind
          simpa [Option.isNone_iff_eq_none] using this
        · simp only [load_h5_file, hne, Bool.false_eq_true, if_false, hfind]
        · simp only [load_h5_file, hne, Bool.false_eq_true, if_false, hfind]

/-- Witness for C4: on a concrete two-dataset store, the no-args call
returns both datasets, and requesting the missing name "c" fails naming
"c" and the path, with a read-free trace. -/
theorem claim_C4_all_or_nothing_read_witness :
    (load_h5_file "f.h5" [("a", [1, 2]), ("b", ([3] : List Int))] []).2
      = .ok [("a", [1, 2]), ("b", [3])] ∧
    (∃ k', k' ∈ ["b", "c"] ∧
      List.lookup k' [("a", [1, 2]), ("b", ([3] : List Int))] = none ∧
      (load_h5_file "f.h5" [("a", [1, 2]), ("b", ([3] : List Int))]
          ["b", "c"]).2 = .error (k', "f.h5") ∧
      (load_h5_file "f.h5" [("a", [1, 2]), ("b", ([3] : List Int))]
          ["b", "c"]).1
        = [FileOp.openRead "f.h5", FileOp.closeFile "f.h5"]) :=
  ⟨(claim_C4_all_or_nothing_read "f.h5" [("a", [1, 2]), ("b", [3])]
      []).2.1 rfl (by decide),
   (claim_C4_all_or_nothing_read "f.h5" [("a", [1, 2]), ("b", [3])]
      ["b", "c"]).2.2 "c" (by decide) (by decide)⟩

/-! ### Claim C7: schema mismatch on CSV read -/

/-- C7: if any requested column is missing from a CSV file, the read
fails with an error reporting both the requested column set and the
file's actual columns; on success the frame keeps exactly the selected
columns in file order (never silently dropped or reordered), and every
requested column is among them. -/
theorem claim_C7_schema_mismatch (f : CSVFile) (cols : List String) :
    ((∃ c ∈ cols, c ∉ f.header) →
        simple_CSV_read f cols = .error (cols, f.header)) ∧
    (∀ frames, simple_CSV_read f cols = .ok frames →
        (∀ c ∈ cols, c ∈ f.header) ∧
        frames = f.rows.map (projectRow f.header cols) ∧
        (∀ row ∈ f.rows, row.length = f.header.length →
            (projectRow f.header cols row).map Prod.fst
              = f.header.filter (fun c => cols.contains c)) ∧
        (∀ c ∈ cols, c ∈ f.header.filter (fun c' => cols.contains c'))) := by
  constructor
  · rintro ⟨c, hc, hmem⟩
    have hnotall : ¬ (cols.all (fun c => f.header.contains c) = true) := by
      intro hall
      exact hmem (List.elem_iff.mp (List.all_eq_true.mp hall c hc))
    unfold simple_CSV_read
    rw [if_neg hnotall]
  · intro frames hok
    unfold simple_CSV_read at hok
    cases hall : cols.all (fun c => f.header.contains c) with
    | false =>
        rw [if_neg (by rw [hall]; exact Bool.false_ne_true)] at hok
        cases hok
    | true =>
        rw [if_pos hall] at hok
        have hmem : ∀ c ∈ cols, c ∈ f.header := fun c hc =>
          List.elem_iff.mp (List.all_eq_true.mp hall c hc)
        have hframes : frames = f.rows.map (projectRow f.header cols) :=
          (Except.ok.inj hok).symm
        refine ⟨hmem, hframes, ?_, ?_⟩
        · intro row hrow hlen
          unfold projectRow
          have hcomp : (fun p : String × Int => cols.contains p.1)
              = (fun c => cols.contains c) ∘ Prod.fst := rfl
          rw [hcomp, ← List.filter_map,
            List.map_fst_zip _ _ (le_of_eq hlen.symm)]
        · intro c hc
          exact List.mem_filter.mpr ⟨hmem c hc, by simp [hc]⟩

/-- Witness for C7: requesting columns `_ref` and `y` from a file with
columns `x` and `_ref` fails reporting requested vs actual; requesting
just `_ref` succeeds with the selected column in file order. -/
theorem claim_C7_schema_mismatch_witness :
    simple_CSV_read { header := ["x", "_ref"], rows := [[5, 7]] }
        ["_ref", "y"] = .error (["_ref", "y"], ["x", "_ref"]) ∧
    (∀ c ∈ ["_ref"], c ∈ ["x", "_ref"]) ∧
    (projectRow ["x", "_ref"] ["_ref"] [5, 7]).map Prod.fst
      = ["x", "_ref"].filter (fun c => ["_ref"].contains c) :=
  ⟨(claim_C7_schema_mismatch { header := ["x", "_ref"], rows := [[5, 7]] }
      ["_ref", "y"]).1 ⟨"y", by decide, by decide⟩,
   ((claim_C7_schema_mismatch { header := ["x", "_ref"], rows := [[5, 7]] }
      ["_ref"]).2 _ rfl).1,
   (((claim_C7_schema_mismatch { header := ["x", "_ref"], rows := [[5, 7]] }
      ["_ref"]).2 _ rfl).2.2.1) [5, 7] (by decide) (by decide)⟩

/-! ### Keyed Table Loader helper lemmas -/

theorem lookup_filter_of_prop {β : Type} {q : String → Bool} {a : String}
    (ha : q a = true) (l : List (String × β)) :
    (l.filter (fun p => q p.1)).lookup a = l.lookup a := by
  induction l with
  | nil => rfl
  | cons p t ih =>
      cases p with
      | mk k v =>
        rw [List.filter_cons]
        by_cases hq : q k = true
        · rw [if_pos hq]
          cases hak : (a == k) <;> simp [List.lookup_cons, hak, ih]
        · rw [if_neg hq]
          have hak : (a == k) = false := by
            cases hak : (a == k) with
            | false => rfl
            | true => exact absurd (eq_of_beq hak ▸ ha) hq
          rw [ih, List.lookup_cons, hak]

/-- The sort key of a projected row is the raw `_ref` cell of the file
row, whenever `_ref` is among the requested columns. -/
theorem refKey_projectRow {cols : List String}
    (hc : cols.contains "_ref" = true) (header : List String)
    (row : List Int) :
    refKey (projectRow header cols row)
      = ((header.zip row).lookup "_ref").getD 0 := by
  unfold refKey projectRow
  rw [lookup_filter_of_prop hc]

theorem lookup_ref_setIndexRow (r : Row) :
    (setIndexRow r).lookup "_ref" = some (refKey r) := by
  unfold setIndexRow
  rw [List.lookup_append, lookup_filter_ne]
  simp

theorem refKey_setIndexRow (r : Row) : refKey (setIndexRow r) = refKey r := by
  unfold refKey
  rw [lookup_ref_setIndexRow]
  rfl

/-- The per-file frames produced by the parallel map of `load_ORG_data`
when every read succeeds. -/
def readFrames (files : List CSVFile) (extra_columns : Option (List String)) :
    List (List Row) :=
  files.map (fun f => f.rows.map (projectRow f.header (loadCols extra_columns)))

/-- The raw `_ref` cells of one CSV file, in row order. -/
def rawRefs (f : CSVFile) : List Int :=
  f.rows.map (fun row => ((f.header.zip row).lookup "_ref").getD 0)

/-- All raw `_ref` cells across a list of CSV files, in enumeration
order. -/
def allRefs (files : List CSVFile) : List Int :=
  (files.map rawRefs).flatten

theorem loadCols_contains_ref (extra_columns : Option (List String)) :
    (loadCols extra_columns).contains "_ref" = true := rfl

theorem mapM_read_ok {files : List CSVFile} {cols : List String}
    {data : List (List Row)}
    (h : files.mapM (fun f => simple_CSV_read f cols) = .ok data) :
    (∀ f ∈ files, cols.all (fun c => f.header.contains c) = true) ∧
    data = files.map (fun f => f.rows.map (projectRow f.header cols)) := by
  induction files generalizing data with
  | nil =>
      rw [List.mapM_nil] at h
      cases h
      exact ⟨fun f hf => absurd hf (List.not_mem_nil f), rfl⟩
  | cons f t ih =>
      rw [List.mapM_cons] at h
      cases hr : simple_CSV_read f cols with
      | error e => rw [hr] at h; cases h
      | ok fr =>
          rw [hr] at h
          cases hm : t.mapM (fun f => simple_CSV_read f cols) with
          | error e => rw [hm] at h; cases h
          | ok rest =>
              rw [hm] at h
              cases h
              obtain ⟨hall, hdata⟩ := ih hm
              have hfall : cols.all (fun c => f.header.contains c) = true := by
                by_contra hc
                rw [Bool.not_eq_true] at hc
                unfold simple_CSV_read at hr
                rw [if_neg (by rw [hc]; exact Bool.false_ne_true)] at hr
                cases hr
              have hfr : fr = f.rows.map (projectRow f.header cols) := by
                unfold simple_CSV_read at hr
                rw [if_pos hfall] at hr
                exact (Except.ok.inj hr).symm
              refine ⟨?_, ?_⟩
              · intro f' hf'
                cases hf' with
                | head => exact hfall
                | tail _ hmem => exact hall f' hmem
              · rw [List.map_cons, ← hdata, ← hfr]

theorem mapM_read_ok_of_all {files : List CSVFile} {cols : List String}
    (h : ∀ f ∈ files, cols.all (fun c => f.header.contains c) = true) :
    files.mapM (fun f => simple_CSV_read f cols)
      = .ok (files.map (fun f => f.rows.map (projectRow f.header cols))) := by
  induction files with
  | nil => rfl
  | cons f t ih =>
      rw [List.mapM_cons]
      have hr : simple_CSV_read f cols
          = .ok (f.rows.map (projectRow f.header cols)) := by
        unfold simple_CSV_read
        rw [if_pos (h f (List.mem_cons_self f t))]
      rw [hr, ih (fun f' hf' => h f' (List.mem_cons_of_mem f hf'))]
      rfl

theorem map_refKey_readFrame (f : CSVFile)
    (extra_columns : Option (List String)) :
    (f.rows.map (projectRow f.header (loadCols extra_columns))).map refKey
      = rawRefs f := by
  rw [List.map_map]
  exact List.map_congr_left (fun row _ =>
    refKey_projectRow (loadCols_contains_ref extra_columns) f.header row)

theorem map_refKey_flatten_readFrames (files : List CSVFile)
    (extra_columns : Option (List String)) :
    ((readFrames files extra_columns).flatten).map refKey = allRefs files := by
  rw [List.map_flatten]
  unfold allRefs readFrames
  rw [List.map_map]
  congr 1
  exact List.map_congr_left (fun f _ => map_refKey_readFrame f extra_columns)

/-- Structure of a successful `load_ORG_data` call: every file read
succeeded, and the result is the stable `_ref`-sort of the concatenated
per-file frames, with the index drawn from the `_ref` column and the
rows re-keyed. -/
theorem load_ORG_data_ok {files : List CSVFile}
    {extra_columns : Option (List String)} {parallel : Bool}
    {kf : KeyedFrame}
    (h : load_ORG_data files extra_columns parallel = .ok kf) :
    (∀ f ∈ files,
        (loadCols extra_columns).all (fun c => f.header.contains c) = true) ∧
    kf = { index := (List.insertionSort rowLE
                      (readFrames files extra_columns).flatten).map refKey,
           rows := (List.insertionSort rowLE
                      (readFrames files extra_columns).flatten).map setIndexRow } := by
  unfold load_ORG_data at h
  cases hm : files.mapM (fun f => simple_CSV_read f (loadCols extra_columns)) with
  | error e => rw [hm] at h; cases h
  | ok data =>
      rw [hm] at h
      obtain ⟨hall, hdata⟩ := mapM_read_ok hm
      cases h
      exact ⟨hall, by rw [hdata]; rfl⟩

/-- Converse: if every file holds every requested column, the load
succeeds and is exactly the sorted reassembly of the projected frames. -/
theorem load_ORG_data_ok_of_all {files : List CSVFile}
    {extra_columns : Option (List String)} (parallel : Bool)
    (h : ∀ f ∈ files,
        (loadCols extra_columns).all (fun c => f.header.contains c) = true) :
    load_ORG_data files extra_columns parallel
      = .ok { index := (List.insertionSort rowLE
                  (readFrames files extra_columns).flatten).map refKey,
              rows := (List.insertionSort rowLE
                  (readFrames files extra_columns).flatten).map setIndexRow } := by
  unfold load_ORG_data
  rw [mapM_read_ok_of_all h]
  rfl

/-! ### Deterministic reassembly lemmas -/

/-- Two permuted lists that are both sorted by an injective-on-them key
are equal. -/
theorem eq_of_perm_sorted_nodup_key {γ : Type} (key : γ → Int)
    {l₁ l₂ : List γ} (hp : l₁.Perm l₂) (hn : (l₁.map key).Nodup)
    (hs₁ : l₁.Pairwise (fun a b => key a ≤ key b))
    (hs₂ : l₂.Pairwise (fun a b => key a ≤ key b)) : l₁ = l₂ := by
  haveI : IsAntisymm γ (fun a b => key a < key b) :=
    ⟨fun a b h h' => absurd (lt_trans h h') (lt_irrefl _)⟩
  apply List.eq_of_perm_of_sorted (r := fun a b => key a < key b) hp
  · have hne := List.pairwise_map.mp hn
    exact (hs₁.and hne).imp (fun h => lt_of_le_of_ne h.1 h.2)
  · have hn₂ : (l₂.map key).Nodup := (hp.map key).nodup hn
    have hne₂ := List.pairwise_map.mp hn₂
    exact (hs₂.and hne₂).imp (fun h => lt_of_le_of_ne h.1 h.2)

/-! ### Claims C3 and C10: the Keyed Table Loader -/

/-- C3: a successful `load_ORG_data` returns the concatenation of all
per-file tables sorted ascending by `_ref`, with `_ref` as the index and
also retained as an ordinary column: the index is sorted, equals the
`_ref` column of the rows, every row answers the `_ref` lookup, and the
index is a permutation of all the files' raw `_ref` cells. -/
theorem claim_C3_sorted_keyed_concat (files : List CSVFile)
    (extra_columns : Option (List String)) (parallel : Bool)
    (kf : KeyedFrame)
    (h : load_ORG_data files extra_columns parallel = .ok kf) :
    kf.index.Pairwise (fun a b => a ≤ b) ∧
    kf.index = kf.rows.map refKey ∧
    (∀ r ∈ kf.rows, r.lookup "_ref" = some (refKey r)) ∧
    kf.index.Perm (allRefs files) := by
  obtain ⟨hall, rfl⟩ := load_ORG_data_ok h
  refine ⟨?_, ?_, ?_, ?_⟩
  · exact List.pairwise_map.mpr
      (List.sorted_insertionSort rowLE (readFrames files extra_columns).flatten)
  · rw [List.map_map]
    exact List.map_congr_left (fun r _ => (refKey_setIndexRow r).symm)
  · intro r hr
    rcases List.mem_map.mp hr with ⟨r₀, hr₀, rfl⟩
    rw [lookup_ref_setIndexRow, refKey_setIndexRow]
  · have hp := (List.perm_insertionSort rowLE
      (readFrames files extra_columns).flatten).map refKey
    rw [map_refKey_flatten_readFrames] at hp
    exact hp

/-- Witness for C3: the end-to-end scenario with shards
`_ref=[3,1]`, `_ref=[2]`, `_ref=[4]` and one payload column `p`: the
returned frame is ordered `_ref = [1,2,3,4]` with payloads permuted
identically, and the general theorem applies to it. -/
theorem claim_C3_sorted_keyed_concat_witness :
    load_ORG_data
        [{ header := ["_ref", "p"], rows := [[3, 30], [1, 10]] },
         { header := ["_ref", "p"], rows := [[2, 20]] },
         { header := ["_ref", "p"], rows := [[4, 40]] }]
        (some ["p"]) false
      = .ok { index := [1, 2, 3, 4],
              rows := [[("p", 10), ("_ref", 1)], [("p", 20), ("_ref", 2)],
                       [("p", 30), ("_ref", 3)], [("p", 40), ("_ref", 4)]] } ∧
    (([1, 2, 3, 4] : List Int).Pairwise (fun a b => a ≤ b) ∧
     ([1, 2, 3, 4] : List Int)
       = [[("p", 10), ("_ref", 1)], [("p", 20), ("_ref", 2)],
          [("p", 30), ("_ref", 3)], [("p", 40), ("_ref", 4)]].map refKey ∧
     (∀ r ∈ [[("p", 10), ("_ref", 1)], [("p", 20), ("_ref", 2)],
             [("p", 30), ("_ref", 3)], [("p", 40), ("_ref", 4)]],
        r.lookup "_ref" = some (refKey r)) ∧
     ([1, 2, 3, 4] : List Int).Perm (allRefs
        [{ header := ["_ref", "p"], rows := [[3, 30], [1, 10]] },
         { header := ["_ref", "p"], rows := [[2, 20]] },
         { header := ["_ref", "p"], rows := [[4, 40]] }])) :=
  ⟨rfl, claim_C3_sorted_keyed_concat
      [{ header := ["_ref", "p"], rows := [[3, 30], [1, 10]] },
       { header := ["_ref", "p"], rows := [[2, 20]] },
       { header := ["_ref", "p"], rows := [[4, 40]] }]
      (some ["p"]) false
      { index := [1, 2, 3, 4],
        rows := [[("p", 10), ("_ref", 1)], [("p", 20), ("_ref", 2)],
                 [("p", 30), ("_ref", 3)], [("p", 40), ("_ref", 4)]] }
      rfl⟩

/-- C10: `load_ORG_data` unconditionally prepends `_ref` to the columns
read from every file: a successful load forces every file to hold a
`_ref` column even though the caller never requested it, every returned
row answers the `_ref` lookup; and with `extra_columns = none` each
returned row consists of the `_ref` column alone. -/
theorem claim_C10_ref_always_read (files : List CSVFile)
    (extra_columns : Option (List String)) (parallel : Bool)
    (kf : KeyedFrame)
    (h : load_ORG_data files extra_columns parallel = .ok kf) :
    (∀ f ∈ files, "_ref" ∈ f.header) ∧
    (∀ r ∈ kf.rows, r.lookup "_ref" = some (refKey r)) ∧
    (extra_columns = none → ∀ r ∈ kf.rows, r = [("_ref", refKey r)]) := by
  obtain ⟨hall, rfl⟩ := load_ORG_data_ok h
  refine ⟨?_, ?_, ?_⟩
  · intro f hf
    have := List.all_eq_true.mp (hall f hf) "_ref" (by simp [loadCols])
    exact List.elem_iff.mp this
  · intro r hr
    rcases List.mem_map.mp hr with ⟨r₀, hr₀, rfl⟩
    rw [lookup_ref_setIndexRow, refKey_setIndexRow]
  · rintro rfl r hr
    rcases List.mem_map.mp hr with ⟨r₀, hr₀, rfl⟩
    have hmem : r₀ ∈ (readFrames files none).flatten :=
      ((List.perm_insertionSort rowLE _).mem_iff).mp hr₀
    rcases List.mem_flatten.mp hmem with ⟨fr, hfr, hr₀fr⟩
    rcases List.mem_map.mp hfr with ⟨f, hf, rfl⟩
    rcases List.mem_map.mp hr₀fr with ⟨row, hrow, rfl⟩
    have hallref : ∀ p ∈ projectRow f.header (loadCols none) row,
        p.1 = "_ref" := by
      intro p hp
      rcases List.mem_filter.mp hp with ⟨-, hcont⟩
      have : p.1 ∈ loadCols none := List.elem_iff.mp hcont
      simpa [loadCols] using this
    have hfilter :
        (projectRow f.header (loadCols none) row).filter
          (fun p => p.1 != "_ref") = [] := by
      rw [List.filter_eq_nil_iff]
      intro p hp
      simp [hallref p hp]
    rw [setIndexRow, hfilter]
    simp [refKey]

/-- Witness for C10: a two-column file loaded with `extra_columns = none`
yields rows holding only the `_ref` column. -/
theorem claim_C10_ref_always_read_witness :
    (∀ f ∈ [{ header := ["x", "_ref"],
              rows := [[5, 7], [6, 2]] }], "_ref" ∈ CSVFile.header f) ∧
    (∀ r ∈ [[("_ref", (2 : Int))], [("_ref", (7 : Int))]],
        r = [("_ref", refKey r)]) :=
  ⟨(claim_C10_ref_always_read
      [{ header := ["x", "_ref"], rows := [[5, 7], [6, 2]] }]
      none false
      { index := [2, 7], rows := [[("_ref", 2)], [("_ref", 7)]] } rfl).1,
   (claim_C10_ref_always_read
      [{ header := ["x", "_ref"], rows := [[5, 7], [6, 2]] }]
      none false
      { index := [2, 7], rows := [[("_ref", 2)], [("_ref", 7)]] } rfl).2.2 rfl⟩

/-! ### Document Vector Assembler lemmas -/

/-- The (ref, vector-row) pairs stored across the shards of a group, in
shard enumeration order: shard i's refs align with shard i's rows. -/
def shardPairs (ur : Bool) (g : List (String × DocShard)) :
    List (Int × List Int) :=
  (g.map (fun p => p.2.ref.zip (shardVectors ur p.2))).flatten

theorem flatten_zip_eq_shardPairs {ur : Bool} :
    ∀ {g : List (String × DocShard)},
    (∀ p ∈ g, (shardVectors ur p.2).length = p.2.ref.length) →
    ((g.map (fun p => p.2.ref)).flatten).zip
        ((g.map (fun p => shardVectors ur p.2)).flatten)
      = shardPairs ur g := by
  intro g
  induction g with
  | nil => intro _; rfl
  | cons q t ih =>
      intro hwf
      unfold shardPairs
      simp only [List.map_cons, List.flatten_cons]
      rw [List.zip_append (hwf q (List.mem_cons_self q t)).symm]
      rw [show ((t.map (fun p => p.2.ref)).flatten).zip
            ((t.map (fun p => shardVectors ur p.2)).flatten)
          = shardPairs ur t from ih (fun p hp => hwf p (List.mem_cons_of_mem q hp))]
      rfl

theorem map_fst_shardPairs {ur : Bool} {g : List (String × DocShard)}
    (hwf : ∀ p ∈ g, (shardVectors ur p.2).length = p.2.ref.length) :
    (shardPairs ur g).map Prod.fst = (g.map (fun p => p.2.ref)).flatten := by
  unfold shardPairs
  rw [List.map_flatten, List.map_map]
  congr 1
  exact List.map_congr_left (fun p hp =>
    List.map_fst_zip _ _ (le_of_eq (hwf p hp).symm))

theorem flatten_vec_length_eq {ur : Bool} {g : List (String × DocShard)}
    (hwf : ∀ p ∈ g, (shardVectors ur p.2).length = p.2.ref.length) :
    ((g.map (fun p => shardVectors ur p.2)).flatten).length
      = ((g.map (fun p => p.2.ref)).flatten).length := by
  rw [List.length_flatten, List.length_flatten, List.map_map, List.map_map]
  congr 1
  exact List.map_congr_left (fun p hp => by
    simp only [Function.comp_apply]
    rw [hwf p hp])

/-- Structure of a successful assembly: under an existing, non-empty
group of row-aligned shards, the assembler returns the `_ref`-sorted
projections of the stacked (ref, row) pairs. -/
theorem load_document_vectors_some {f_h5 : String} {store : ScoreStore}
    {m : String} {ur : Bool} {g : List (String × DocShard)}
    (hg : store.lookup m = some g) (hne : g ≠ [])
    (hwf : ∀ p ∈ g, (shardVectors ur p.2).length = p.2.ref.length)
    (hvs : vstack_ok ((g.map (fun p => shardVectors ur p.2)).flatten) = true) :
    (load_document_vectors f_h5 store m ur).2
      = some ((List.insertionSort pairLE (shardPairs ur g)).map Prod.fst,
              (List.insertionSort pairLE (shardPairs ur g)).map Prod.snd) := by
  unfold load_document_vectors
  rw [hg]
  simp only
  rw [if_neg (by simpa [List.isEmpty_iff] using hne)]
  rw [if_pos hvs]
  rw [if_pos (flatten_vec_length_eq hwf)]
  rw [flatten_zip_eq_shardPairs hwf]

/-- An empty shard group makes the assembly fail (`np.hstack([])`
raises), whatever the store path. -/
theorem load_document_vectors_empty {f_h5 : String} {store : ScoreStore}
    {m : String} {ur : Bool}
    (hg : store.lookup m = some []) :
    (load_document_vectors f_h5 store m ur).2 = none := by
  unfold load_document_vectors
  rw [hg]
  rfl

/-- A stacked row-count mismatch makes the assembly fail (the
`assert(X.shape[0] == _refs.size)` hard stop). -/
theorem load_document_vectors_mismatch {f_h5 : String} {store : ScoreStore}
    {m : String} {ur : Bool} {g : List (String × DocShard)}
    (hg : store.lookup m = some g)
    (hlen : ((g.map (fun p => shardVectors ur p.2)).flatten).length
        ≠ ((g.map (fun p => p.2.ref)).flatten).length) :
    (load_document_vectors f_h5 store m ur).2 = none := by
  unfold load_document_vectors
  rw [hg]
  simp only
  have hne : ¬ g.isEmpty = true := by
    intro hc
    rw [List.isEmpty_iff] at hc
    subst hc
    exact hlen rfl
  rw [if_neg hne]
  by_cases hvs : vstack_ok ((g.map (fun p => shardVectors ur p.2)).flatten) = true
  · rw [if_pos hvs, if_neg hlen]
  · rw [if_neg hvs]

/-- Mixed vector widths across the stacked rows make the assembly fail
(`np.vstack` raises `ValueError` at line 216), whatever the store path. -/
theorem load_document_vectors_vstack_fail {f_h5 : String}
    {store : ScoreStore} {m : String} {ur : Bool}
    {g : List (String × DocShard)}
    (hg : store.lookup m = some g)
    (hvs : vstack_ok ((g.map (fun p => shardVectors ur p.2)).flatten)
        = false) :
    (load_document_vectors f_h5 store m ur).2 = none := by
  unfold load_document_vectors
  rw [hg]
  simp only
  have hne : ¬ g.isEmpty = true := by
    intro hc
    rw [List.isEmpty_iff] at hc
    subst hc
    simp [vstack_ok] at hvs
  rw [if_neg hne, if_neg (by rw [hvs]; exact Bool.false_ne_true)]

/-- `vstack_ok` says exactly that any two stacked rows share a width. -/
theorem vstack_ok_iff (rows : List (List Int)) :
    vstack_ok rows = true ↔
      ∀ a ∈ rows, ∀ b ∈ rows, a.length = b.length := by
  cases rows with
  | nil => simp [vstack_ok]
  | cons r rest =>
      simp only [vstack_ok, List.all_eq_true]
      constructor
      · intro h a ha b hb
        have key : ∀ x ∈ r :: rest, x.length = r.length := by
          intro x hx
          cases hx with
          | head => rfl
          | tail _ hx => exact eq_of_beq (h x hx)
        rw [key a ha, key b hb]
      · intro h s hs
        exact beq_iff_eq.mpr
          (h s (List.mem_cons_of_mem r hs) r (List.mem_cons_self r rest))

theorem vstack_ok_of_perm {l₁ l₂ : List (List Int)} (hp : l₁.Perm l₂)
    (h : vstack_ok l₁ = true) : vstack_ok l₂ = true := by
  rw [vstack_ok_iff] at h ⊢
  intro a ha b hb
  exact h a (hp.mem_iff.mpr ha) b (hp.mem_iff.mpr hb)

/-! ### Claims C1 and C6: assembly correctness and shape check -/

/-- C1: for every non-empty shard group under an existing score-method
group (with the shard row-alignment invariant, and the stacked rows
sharing one vector width so that `np.vstack` accepts them), the assembler
returns a reference array sorted ascending together with a matrix to
which the same sort permutation was applied: the returned (ref, row)
pairs are a permutation of the pairs stored in the shards, so row i sits
beside the i-th smallest reference id. -/
theorem claim_C1_assembler_sorted_aligned (f_h5 : String)
    (store : ScoreStore) (m : String) (u : Bool)
    (g : List (String × DocShard))
    (hg : store.lookup m = some g) (hne : g ≠ [])
    (hwf : ∀ p ∈ g, (shardVectors u p.2).length = p.2.ref.length)
    (hvs : vstack_ok ((g.map (fun p => shardVectors u p.2)).flatten)
        = true) :
    ∃ refs X, (load_document_vectors f_h5 store m u).2 = some (refs, X) ∧
      refs.Pairwise (fun a b => a ≤ b) ∧
      (refs.zip X).Perm (shardPairs u g) ∧
      refs.length = X.length := by
  refine ⟨_, _, load_document_vectors_some hg hne hwf hvs, ?_, ?_, ?_⟩
  · exact List.pairwise_map.mpr (List.sorted_insertionSort pairLE _)
  · have hzip : ((List.insertionSort pairLE (shardPairs u g)).map
          Prod.fst).zip ((List.insertionSort pairLE (shardPairs u g)).map
          Prod.snd) = List.insertionSort pairLE (shardPairs u g) :=
      (List.zip_of_prod rfl rfl).symm
    rw [hzip]
    exact List.perm_insertionSort pairLE _
  · rw [List.length_map, List.length_map]

/-- Witness for C1: two shards with refs `[3,1]` and `[2]` assemble into
refs `[1,2,3]` with the rows carried along by the same permutation. -/
theorem claim_C1_assembler_sorted_aligned_witness :
    ∃ refs X,
      (load_document_vectors "db"
        [("m", [("w0", { ref := [3, 1], V := [[31, 32], [11, 12]],
                         VX := [[3], [1]] }),
                ("w1", { ref := [2], V := [[21, 22]], VX := [[2]] })])]
        "m" false).2 = some (refs, X) ∧
      refs.Pairwise (fun a b => a ≤ b) ∧
      (refs.zip X).Perm (shardPairs false
        [("w0", { ref := [3, 1], V := [[31, 32], [11, 12]],
                  VX := [[3], [1]] }),
         ("w1", { ref := [2], V := [[21, 22]], VX := [[2]] })]) ∧
      refs.length = X.length :=
  claim_C1_assembler_sorted_aligned "db"
    [("m", [("w0", { ref := [3, 1], V := [[31, 32], [11, 12]],
                     VX := [[3], [1]] }),
            ("w1", { ref := [2], V := [[21, 22]], VX := [[2]] })])]
    "m" false
    [("w0", { ref := [3, 1], V := [[31, 32], [11, 12]], VX := [[3], [1]] }),
     ("w1", { ref := [2], V := [[21, 22]], VX := [[2]] })]
    rfl (by decide) (by decide) (by decide)

/-- C6: the assembler checks that the stacked matrix's row count equals
the stacked reference array's size: whenever they disagree the call
fails (the `ShapeMismatch` hard stop), and every successful call returns
a pair with `len(refs) == number_of_rows(vectors)`. -/
theorem claim_C6_shape_mismatch_check (f_h5 : String) (store : ScoreStore)
    (m : String) (u : Bool) :
    (∀ q, (load_document_vectors f_h5 store m u).2 = some q →
        q.1.length = q.2.length) ∧
    (∀ g, store.lookup m = some g →
        ((g.map (fun p => shardVectors u p.2)).flatten).length
          ≠ ((g.map (fun p => p.2.ref)).flatten).length →
        (load_document_vectors f_h5 store m u).2 = none) := by
  constructor
  · intro q hq
    unfold load_document_vectors at hq
    cases hlk : store.lookup m with
    | none => rw [hlk] at hq; cases hq
    | some g =>
        rw [hlk] at hq
        simp only at hq
        by_cases hemp : g.isEmpty
        · rw [if_pos hemp] at hq; cases hq
        · rw [if_neg hemp] at hq
          by_cases hvs : vstack_ok
              ((g.map (fun p => shardVectors u p.2)).flatten) = true
          · rw [if_pos hvs] at hq
            by_cases hlen : ((g.map (fun p => shardVectors u p.2)).flatten).length
                = ((g.map (fun p => p.2.ref)).flatten).length
            · rw [if_pos hlen] at hq
              cases hq
              rw [List.length_map, List.length_map]
            · rw [if_neg hlen] at hq; cases hq
          · rw [if_neg hvs] at hq; cases hq
  · intro g hg hlen
    exact load_document_vectors_mismatch hg hlen

/-- Witness for C6: a shard holding two refs but a single vector row is
rejected, and on the aligned store of the C1 scenario the returned pair
has equal lengths. -/
theorem claim_C6_shape_mismatch_check_witness :
    (load_document_vectors "db"
        [("m", [("w", { ref := [1, 2], V := [[10]], VX := [[1]] })])]
        "m" false).2 = none ∧
    (([1, 2, 3] : List Int).length
      = ([[11, 12], [21, 22], [31, 32]] : List (List Int)).length) :=
  ⟨(claim_C6_shape_mismatch_check "db"
      [("m", [("w", { ref := [1, 2], V := [[10]], VX := [[1]] })])]
      "m" false).2
      [("w", { ref := [1, 2], V := [[10]], VX := [[1]] })] rfl (by decide),
   (claim_C6_shape_mismatch_check "db"
      [("m", [("w0", { ref := [3, 1], V := [[31, 32], [11, 12]],
                       VX := [[3], [1]] }),
              ("w1", { ref := [2], V := [[21, 22]], VX := [[2]] })])]
      "m" false).1 ([1, 2, 3], [[11, 12], [21, 22], [31, 32]]) rfl⟩

/-! ### Claims C2 and C8: determinism and duplicate handling -/

theorem insertionSort_rowLE_eq_of_perm {l₁ l₂ : List Row}
    (hp : l₁.Perm l₂) (hnd : (l₁.map refKey).Nodup) :
    List.insertionSort rowLE l₁ = List.insertionSort rowLE l₂ :=
  eq_of_perm_sorted_nodup_key refKey
    (((List.perm_insertionSort rowLE l₁).trans hp).trans
      (List.perm_insertionSort rowLE l₂).symm)
    (((List.perm_insertionSort rowLE l₁).map refKey).symm.nodup hnd)
    (List.sorted_insertionSort rowLE l₁)
    (List.sorted_insertionSort rowLE l₂)

theorem insertionSort_pairLE_eq_of_perm {l₁ l₂ : List (Int × List Int)}
    (hp : l₁.Perm l₂) (hnd : (l₁.map Prod.fst).Nodup) :
    List.insertionSort pairLE l₁ = List.insertionSort pairLE l₂ :=
  eq_of_perm_sorted_nodup_key Prod.fst
    (((List.perm_insertionSort pairLE l₁).trans hp).trans
      (List.perm_insertionSort pairLE l₂).symm)
    (((List.perm_insertionSort pairLE l₁).map Prod.fst).symm.nodup hnd)
    (List.sorted_insertionSort pairLE l₁)
    (List.sorted_insertionSort pairLE l₂)

/-- C2: with pairwise-distinct `_ref` values, the Keyed Table Loader's
output is invariant under any permutation of the file enumeration and
under the degree of parallelism, and the Document Vector Assembler's
output is invariant under any permutation of the shard enumeration: both
are pure functions of the set of inputs and the requested columns. -/
theorem claim_C2_enumeration_order_invariance :
    (∀ (l₁ l₂ : List CSVFile) (e : Option (List String)) (p₁ p₂ : Bool)
        (kf : KeyedFrame),
        l₁.Perm l₂ → (allRefs l₁).Nodup →
        load_ORG_data l₁ e p₁ = .ok kf → load_ORG_data l₂ e p₂ = .ok kf) ∧
    (∀ (f₁ f₂ : String) (s₁ s₂ : ScoreStore) (m : String) (u : Bool)
        (g₁ g₂ : List (String × DocShard)),
        s₁.lookup m = some g₁ → s₂.lookup m = some g₂ → g₁.Perm g₂ →
        (∀ p ∈ g₁, (shardVectors u p.2).length = p.2.ref.length) →
        ((g₁.map (fun p => p.2.ref)).flatten).Nodup →
        (load_document_vectors f₁ s₁ m u).2
          = (load_document_vectors f₂ s₂ m u).2) := by
  constructor
  · intro l₁ l₂ e p₁ p₂ kf hperm hnd h₁
    obtain ⟨hall₁, rfl⟩ := load_ORG_data_ok h₁
    have hall₂ : ∀ f ∈ l₂,
        (loadCols e).all (fun c => f.header.contains c) = true :=
      fun f hf => hall₁ f (hperm.mem_iff.mpr hf)
    rw [load_ORG_data_ok_of_all p₂ hall₂]
    have hflat : ((readFrames l₁ e).flatten).Perm
        ((readFrames l₂ e).flatten) := (hperm.map _).flatten
    have hkeys : (((readFrames l₁ e).flatten).map refKey).Nodup := by
      rw [map_refKey_flatten_readFrames]
      exact hnd
    rw [insertionSort_rowLE_eq_of_perm hflat hkeys]
  · intro f₁ f₂ s₁ s₂ m u g₁ g₂ hg₁ hg₂ hperm hwf₁ hnd
    have hwf₂ : ∀ p ∈ g₂, (shardVectors u p.2).length = p.2.ref.length :=
      fun p hp => hwf₁ p (hperm.mem_iff.mpr hp)
    rcases eq_or_ne g₁ [] with rfl | hne₁
    · have hg₂nil : g₂ = [] := hperm.symm.eq_nil
      subst hg₂nil
      rw [load_document_vectors_empty hg₁, load_document_vectors_empty hg₂]
    · have hne₂ : g₂ ≠ [] := fun hc => hne₁ ((hc ▸ hperm).eq_nil)
      have hvperm : ((g₁.map (fun p => shardVectors u p.2)).flatten).Perm
          ((g₂.map (fun p => shardVectors u p.2)).flatten) :=
        (hperm.map _).flatten
      cases hvs₁ : vstack_ok ((g₁.map (fun p => shardVectors u p.2)).flatten) with
      | true =>
          have hvs₂ : vstack_ok
              ((g₂.map (fun p => shardVectors u p.2)).flatten) = true :=
            vstack_ok_of_perm hvperm hvs₁
          rw [load_document_vectors_some hg₁ hne₁ hwf₁ hvs₁,
            load_document_vectors_some hg₂ hne₂ hwf₂ hvs₂]
          have hpairs : (shardPairs u g₁).Perm (shardPairs u g₂) :=
            (hperm.map _).flatten
          have hkeys : ((shardPairs u g₁).map Prod.fst).Nodup := by
            rw [map_fst_shardPairs hwf₁]
            exact hnd
          rw [insertionSort_pairLE_eq_of_perm hpairs hkeys]
      | false =>
          have hvs₂ : vstack_ok
              ((g₂.map (fun p => shardVectors u p.2)).flatten) = false := by
            cases hv : vstack_ok
                ((g₂.map (fun p => shardVectors u p.2)).flatten) with
            | false => rfl
            | true =>
                have := vstack_ok_of_perm hvperm.symm hv
                rw [hvs₁] at this
                cases this
          rw [load_document_vectors_vstack_fail hg₁ hvs₁,
            load_document_vectors_vstack_fail hg₂ hvs₂]

/-- Witness for C2: swapping two shard files (and flipping the parallel
flag) reproduces the identical sorted frame, and swapping two shard
groups reproduces the identical assembled pair. -/
theorem claim_C2_enumeration_order_invariance_witness :
    load_ORG_data
        [{ header := ["_ref", "p"], rows := [[2, 20]] },
         { header := ["_ref", "p"], rows := [[3, 30], [1, 10]] }]
        (some ["p"]) true
      = .ok { index := [1, 2, 3],
              rows := [[("p", 10), ("_ref", 1)], [("p", 20), ("_ref", 2)],
                       [("p", 30), ("_ref", 3)]] } ∧
    (load_document_vectors "db"
        [("m", [("w0", { ref := [3, 1], V := [[31, 32], [11, 12]],
                         VX := [[3], [1]] }),
                ("w1", { ref := [2], V := [[21, 22]], VX := [[2]] })])]
        "m" false).2
      = (load_document_vectors "db2"
        [("m", [("w1", { ref := [2], V := [[21, 22]], VX := [[2]] }),
                ("w0", { ref := [3, 1], V := [[31, 32], [11, 12]],
                         VX := [[3], [1]] })])]
        "m" false).2 :=
  ⟨claim_C2_enumeration_order_invariance.1
      [{ header := ["_ref", "p"], rows := [[3, 30], [1, 10]] },
       { header := ["_ref", "p"], rows := [[2, 20]] }]
      [{ header := ["_ref", "p"], rows := [[2, 20]] },
       { header := ["_ref", "p"], rows := [[3, 30], [1, 10]] }]
      (some ["p"]) false true
      { index := [1, 2, 3],
        rows := [[("p", 10), ("_ref", 1)], [("p", 20), ("_ref", 2)],
                 [("p", 30), ("_ref", 3)]] }
      (by decide) (by decide) rfl,
   claim_C2_enumeration_order_invariance.2 "db" "db2"
      [("m", [("w0", { ref := [3, 1], V := [[31, 32], [11, 12]],
                       VX := [[3], [1]] }),
              ("w1", { ref := [2], V := [[21, 22]], VX := [[2]] })])]
      [("m", [("w1", { ref := [2], V := [[21, 22]], VX := [[2]] }),
              ("w0", { ref := [3, 1], V := [[31, 32], [11, 12]],
                       VX := [[3], [1]] })])]
      "m" false
      [("w0", { ref := [3, 1], V := [[31, 32], [11, 12]], VX := [[3], [1]] }),
       ("w1", { ref := [2], V := [[21, 22]], VX := [[2]] })]
      [("w1", { ref := [2], V := [[21, 22]], VX := [[2]] }),
       ("w0", { ref := [3, 1], V := [[31, 32], [11, 12]], VX := [[3], [1]] })]
      rfl rfl (by decide) (by decide) (by decide)⟩
